import Mathlib

/-!
Verification development for the FC_Tools repository.

The definitions below are a shallow embedding of the TypeScript frontend
(src/frontend/src/lib/types.ts, api.ts, hooks/useAgentChat.ts,
hooks/useReports.ts, components ReportList), of the environment-fixing
shell scripts (src/scripts/fix_agent.sh, fix_supervisor.sh), and — for the
orchestration core that is documented but whose backend source is not part
of the repository snapshot — a model built from the specification text.
-/

set_option autoImplicit false

namespace FCTools

/-! ### Field-level embedding of the type declarations in types.ts

Each list transcribes one `export type` declaration of
src/frontend/src/lib/types.ts: the field names in declaration order,
paired with `true` when the field is optional (written with `?:`). -/

/-- Fields of `AgentRunRequest` (types.ts lines 7-17). -/
def agentRunRequestFields : List (String × Bool) :=
  [("input_type", false), ("query", false), ("session_id", true), ("options", true)]

/-- Fields of the `options` object inside `AgentRunRequest` (types.ts lines 11-16). -/
def agentRunOptionsFields : List (String × Bool) :=
  [("lang", true), ("top_k", true), ("include_sources", true), ("format", true)]

/-- Fields of `AgentRunResponse` (types.ts lines 31-42). -/
def agentRunResponseFields : List (String × Bool) :=
  [("ok", false), ("response", true), ("input_type", false), ("tool_results", true),
   ("sources", true), ("warnings", true), ("error", true), ("timestamp", false),
   ("trace_id", true), ("nlg", true)]

/-- Fields of `ReportInfo` (types.ts lines 45-52); all are required. -/
def reportInfoFields : List String :=
  ["name", "path", "size", "generated_at", "render_mode", "watermark"]

/-! ### Value-level embedding of types.ts -/

/-- The TypeScript literal-union type of `AgentRunRequest.input_type`,
which has the single member "text". -/
inductive InputType where
  | text
deriving DecidableEq

/-- Type `SourceInfo` (types.ts lines 19-23). -/
structure SourceInfo where
  source : String
  timestamp : Option String
  tool : Option String
deriving DecidableEq

/-- Type `NLGInfo` (types.ts lines 25-29). -/
structure NLGInfo where
  raw : Option String
  colloquial : Option String
  system_prompt : Option String
deriving DecidableEq

/-- A JavaScript record of the shape `Record<string, any>`, modelled as an
association list over string renderings of the values. -/
def JsRecord : Type := List (String × String)

instance : DecidableEq JsRecord := by
  unfold JsRecord
  infer_instance

/-- Type of `AgentRunRequest.options` (types.ts lines 11-16). The `lang` and
`format` unions are modelled as strings. -/
structure AgentRunOptions where
  lang : Option String
  top_k : Option Nat
  include_sources : Option Bool
  format : Option String
deriving DecidableEq

/-- Type `AgentRunRequest` (types.ts lines 7-17). -/
structure AgentRunRequest where
  input_type : InputType
  query : String
  session_id : Option String
  options : Option AgentRunOptions
deriving DecidableEq

/-- Type `AgentRunResponse` (types.ts lines 31-42). -/
structure AgentRunResponse where
  ok : Bool
  response : Option String
  input_type : String
  tool_results : Option (List JsRecord)
  sources : Option (List SourceInfo)
  warnings : Option (List String)
  error : Option String
  timestamp : String
  trace_id : Option String
  nlg : Option NLGInfo
deriving DecidableEq

/-- The literal-union type of `ReportInfo.render_mode` (types.ts line 50). -/
inductive RenderMode where
  | auto
  | overlay
  | acroform
  | unknown
deriving DecidableEq

/-- The string a `RenderMode` value denotes in the TypeScript union. -/
def renderModeString : RenderMode → String
  | .auto => "auto"
  | .overlay => "overlay"
  | .acroform => "acroform"
  | .unknown => "unknown"

/-- Type `ReportInfo` (types.ts lines 45-52). -/
structure ReportInfo where
  name : String
  path : String
  size : Nat
  generated_at : String
  render_mode : RenderMode
  watermark : String
deriving DecidableEq

/-- Type `ReportListResponse` (types.ts lines 54-60). The `data` field is kept
optional because useReports guards it with `response.data || []`. -/
structure ReportListResponse where
  ok : Bool
  data : Option (List ReportInfo)
  count : Nat
  reason : Option String
  timestamp : String
deriving DecidableEq

/-- Type `ApiError` (types.ts lines 96-101); `message` is kept optional because
the hooks guard it with `apiError.message || ...` after an unchecked cast. -/
structure ApiError where
  message : Option String
  status : Option Nat
  code : Option String
deriving DecidableEq

/-! ### JavaScript helpers

`jsOr o d` models the JavaScript expression `x || d` for a possibly absent
string `x`: the default is taken when `x` is `undefined`/`null` or the
empty string (both falsy). -/

def jsOr (o : Option String) (d : String) : String :=
  match o with
  | some s => if s = "" then d else s
  | none => d

/-- JavaScript's `String.prototype.trim`, modelled on the character list
underlying the string: drop whitespace from both ends. -/
def jsTrim (s : String) : String :=
  String.mk (((s.data.dropWhile Char.isWhitespace).reverse.dropWhile Char.isWhitespace).reverse)

/-! ### api.ts -/

/-- JavaScript's `String.prototype.startsWith`, modelled on the character
lists underlying the strings. -/
def jsStartsWith (s pre : String) : Bool :=
  pre.data.isPrefixOf s.data

/-- Function `buildApiUrl` (api.ts lines 20-24): prepend the base URL, making sure
the path starts with a slash. -/
def buildApiUrl (base path : String) : String :=
  base ++ (if jsStartsWith path "/" then path else "/" ++ path)

/-- Function `apiPost` (api.ts lines 89-115): build the full URL and submit the
body to it.  The network POST itself is the external collaborator `post`;
`apiPost` forwards the body unchanged and returns the parsed response. -/
def apiPost (base : String) (post : String → AgentRunRequest → AgentRunResponse)
    (path : String) (body : AgentRunRequest) : AgentRunResponse :=
  post (buildApiUrl base path) body

/-- Function `runAgent` (api.ts lines 127-129): POST the request to the single
agent endpoint `/api/agent/run`. -/
def runAgent (base : String) (post : String → AgentRunRequest → AgentRunResponse)
    (request : AgentRunRequest) : AgentRunResponse :=
  apiPost base post "/api/agent/run" request

/-- The upper-case hexadecimal digit for `n < 16`. -/
def hexDigit (n : Nat) : Char :=
  if n < 10 then Char.ofNat (48 + n) else Char.ofNat (55 + n)

/-- The characters that JavaScript's `encodeURIComponent` leaves
unescaped besides ASCII letters and digits. -/
def uriUnreservedMarks : List Char :=
  ['-', '_', '.', '!', '~', '*', Char.ofNat 39, '(', ')']

/-- Whether `encodeURIComponent` leaves the character as is. -/
def isUriUnreserved (c : Char) : Bool :=
  c.isAlpha || c.isDigit || uriUnreservedMarks.contains c

/-- Percent-encode one character as its UTF-8 bytes, each written
`%XX` with upper-case hexadecimal digits. -/
def percentEncodeChar (c : Char) : String :=
  (String.singleton c).toUTF8.toList.foldl
    (fun acc b =>
      acc ++ "%" ++ String.singleton (hexDigit (b.toNat / 16))
          ++ String.singleton (hexDigit (b.toNat % 16))) ""

/-- JavaScript's `encodeURIComponent`: keep unreserved characters,
percent-encode the UTF-8 bytes of every other character. -/
def encodeURIComponent (s : String) : String :=
  s.data.foldl
    (fun acc c => acc ++ (if isUriUnreserved c then String.singleton c else percentEncodeChar c)) ""

/-- Function `buildReportDownloadUrl` (api.ts lines 141-144): the download endpoint
with the URI-encoded path as its `path` query parameter. -/
def buildReportDownloadUrl (base path : String) : String :=
  buildApiUrl base ("/api/reports/download?path=" ++ encodeURIComponent path)

/-! ### ReportList component -/

/-- The display descriptor returned by `getRenderModeDisplay`:
a badge text and a badge variant. -/
structure RenderModeDisplay where
  text : String
  variant : String
deriving DecidableEq

/-- Function `getRenderModeDisplay` (ReportList component): map a `render_mode`
string to its badge; anything other than overlay/acroform/auto falls to
the destructive "unknown" badge. -/
def getRenderModeDisplay (mode : String) : RenderModeDisplay :=
  if mode = "overlay" then ⟨"覆蓋", "default"⟩
  else if mode = "acroform" then ⟨"表單", "secondary"⟩
  else if mode = "auto" then ⟨"自動", "outline"⟩
  else ⟨"未知", "destructive"⟩

/-! ### hooks/useAgentChat.ts -/

/-- The argument of `addMessage` in useAgentChat: a chat message without
the generated `id` and `timestamp` (`Omit<ChatMessage, 'id' | 'timestamp'>`). -/
structure PendingMessage where
  type : String
  content : String
  sources : Option (List SourceInfo)
  tool_results : Option (List JsRecord)
deriving DecidableEq

/-- The condition `!response.response?.trim()` of useAgentChat: the
response text is absent or whitespace-only. -/
def respBlank (r : Option String) : Bool :=
  match r with
  | some s => jsTrim s = ""
  | none => true

/-- The request built by `useAgentChat.send` (useAgentChat.ts lines 51-60)
for the submitted text and the hook's session id. -/
def buildAgentChatRequest (text sessionId : String) : AgentRunRequest :=
  { input_type := InputType.text
    query := jsTrim text
    session_id := some sessionId
    options := some
      { lang := some "tw"
        top_k := none
        include_sources := some true
        format := some "json" } }

/-- The response handling of `useAgentChat.send` (useAgentChat.ts lines
70-106): the list of messages appended after the user message, and the
value the hook's error state is set to. -/
def processAgentResponse (resp : AgentRunResponse) : List PendingMessage × Option String :=
  if resp.ok then
    let assistantMsgs : List PendingMessage :=
      match resp.response with
      | some r => if jsTrim r ≠ "" then [⟨"assistant", r, resp.sources, resp.tool_results⟩] else []
      | none => []
    let warningMsgs : List PendingMessage :=
      match resp.warnings with
      | some ws =>
        if ws.length > 0 then ws.map (fun w => ⟨"warning", "警告: " ++ w, none, none⟩) else []
      | none => []
    let joinedMsgs : List PendingMessage :=
      match resp.warnings with
      | some ws =>
        if respBlank resp.response && ws.length > 0 then
          [⟨"warning", String.intercalate ", " ws, none, none⟩]
        else []
      | none => []
    (assistantMsgs ++ warningMsgs ++ joinedMsgs, none)
  else
    let errorMessage := jsOr resp.error "查詢處理失敗"
    ([⟨"error", errorMessage, none, none⟩], some errorMessage)

/-! ### hooks/useReports.ts -/

/-- The state of useReports that `list` writes: the report entries, the
error message, and the loading flag. -/
structure ReportsState where
  reports : List ReportInfo
  error : Option String
  loading : Bool
deriving DecidableEq

/-- One completed run of `useReports.list` (useReports.ts lines 26-55):
from the previous hook state and the outcome of `getReportsList`
(a parsed response, or a thrown `ApiError`) to the hook state after the
`finally` block. -/
def reportsList : ReportsState → Except ApiError ReportListResponse → ReportsState :=
  fun _ res =>
    match res with
    | .ok resp =>
      if resp.ok then ⟨resp.data.getD [], none, false⟩
      else ⟨[], some (jsOr resp.reason "取得報告列表失敗"), false⟩
    | .error e => ⟨[], some (jsOr e.message "取得報告列表時發生錯誤"), false⟩

/-! ### scripts/fix_agent.sh and scripts/fix_supervisor.sh

The `.env` file is a list of lines.  `grep -q "^KEY="` is existence of a
line starting with `KEY=`, and `echo "KEY=VALUE" >> .env` appends. -/

/-- Model of `grep -q "^key="`: whether some line of the file starts with the key
followed by an equal sign. -/
def envHasKey (lines : List String) (key : String) : Bool :=
  (lines.find? (fun l => jsStartsWith l (key ++ "="))).isSome

/-- One `grep -q "^KEY=" .env || echo "KEY=VALUE" >> .env` step of the fix
scripts: append the default assignment when the key is not yet set. -/
def ensureEnvVar (lines : List String) (key value : String) : List String :=
  if envHasKey lines key then lines else lines ++ [key ++ "=" ++ value]

/-- Model of `cut -d"=" -f2` on a line containing an equal sign: the text between
the first equal sign and the next one (or the end of the line). -/
def cutField2 (l : String) : String :=
  String.mk (((l.data.dropWhile (fun c => c ≠ '=')).drop 1).takeWhile (fun c => c ≠ '='))

/-- Model of `grep "^KEY=" .env | cut -d"=" -f2`: the value of the first line
setting the key. -/
def envValue (lines : List String) (key : String) : Option String :=
  (lines.find? (fun l => jsStartsWith l (key ++ "="))).map cutField2

/-- The sequence of defaults written by scripts/fix_agent.sh
(lines 24-66). -/
def fixAgentEnv (lines : List String) : List String :=
  ensureEnvVar
    (ensureEnvVar
      (ensureEnvVar
        (ensureEnvVar lines "EXECUTE_TOOLS" "1")
        "COLLOQUIAL_ENABLED" "1")
      "MAX_TOOL_LOOPS" "3")
    "LLM_REPORT_ENHANCEMENT" "1"

/-- The sequence of defaults written by scripts/fix_supervisor.sh
(lines 18-23). -/
def fixSupervisorEnv (lines : List String) : List String :=
  ensureEnvVar
    (ensureEnvVar
      (ensureEnvVar
        (ensureEnvVar
          (ensureEnvVar
            (ensureEnvVar lines "EXECUTE_TOOLS" "1")
            "COLLOQUIAL_ENABLED" "1")
          "MAX_TOOL_LOOPS" "3")
        "OUTPUT_DIR" "./outputs")
      "PDF_ENGINE" "weasyprint")
    "VECTORSTORE_DIR" "./vector_store"

/-! ### The orchestration core (ToolExecutionLoop)

The backend implementing the agent graph is not part of the repository
snapshot (only its scripts, README and frontend client are), so the loop
is modelled from the specification text, section 4.2. -/

/-- Modelled from the spec: `ToolInvocationPlan` of the orchestration
core, section 3 — one entry per planned call. -/
structure ToolInvocationPlan where
  tool_name : String
  arguments : List (String × String)
  rationale : Option String
deriving DecidableEq

/-- Modelled from the spec: `ToolResult` of the orchestration core,
section 3 — the outcome of one invocation. -/
structure ToolResult where
  ok : Bool
  source : String
  tool : String
  data : Option (List (String × String))
  error : Option String
  logs : Option String
  timestamp : String
deriving DecidableEq

/-- Modelled from the spec: the warning codes recorded by the
ToolExecutionLoop, sections 4.2 and 7.  `tool_loops_exceeded count bound`
renders as `tool_loops_exceeded: count >= bound`. -/
inductive LoopWarning where
  | execute_tools_disabled
  | tool_loops_exceeded (count bound : Nat)
deriving DecidableEq

/-- Modelled from the spec: the per-request run state threaded through
the ToolExecutionLoop, section 3. -/
structure LoopState where
  loop_count : Nat
  tool_results : List ToolResult
  warnings : List LoopWarning
  ok : Bool
deriving DecidableEq

/-- Modelled from the spec: the ToolExecutionLoop of section 4.2, whose
backend source is missing from the snapshot.  `planner` is PlannerStep,
`execute` the fan-out tool invocation of one round (an external
collaborator that never throws), `needsMore` the per-round re-planning
predicate, and `executeEnabled` the process-wide execution flag.  A round
runs whenever the planner returns a non-empty plan, the flag is on and
`loop_count` is still below the bound; a non-empty plan with the flag off
records `execute_tools_disabled`; exhausting the bound while more rounds
are demanded records `tool_loops_exceeded` and keeps `ok` true with the
collected results. -/
def toolExecutionLoop (maxLoops : Nat) (planner : LoopState → List ToolInvocationPlan)
    (execute : List ToolInvocationPlan → List ToolResult) (needsMore : LoopState → Bool)
    (executeEnabled : Bool) (s : LoopState) : LoopState :=
  if (planner s).isEmpty then s
  else if !executeEnabled then
    { s with warnings := s.warnings ++ [LoopWarning.execute_tools_disabled] }
  else if _h : s.loop_count < maxLoops then
    if needsMore { s with tool_results := s.tool_results ++ execute (planner s),
                          loop_count := s.loop_count + 1 } then
      toolExecutionLoop maxLoops planner execute needsMore executeEnabled
        { s with tool_results := s.tool_results ++ execute (planner s),
                 loop_count := s.loop_count + 1 }
    else
      { s with tool_results := s.tool_results ++ execute (planner s),
               loop_count := s.loop_count + 1 }
  else
    { s with warnings := s.warnings ++ [LoopWarning.tool_loops_exceeded s.loop_count maxLoops],
             ok := true }
termination_by maxLoops - s.loop_count
decreasing_by
  omega

/-! ### Helper lemmas -/

/-- A string starting with a slash still starts with a slash after a
suffix is appended. -/
theorem jsStartsWith_slash_append (s t : String) (h : jsStartsWith s "/" = true) :
    jsStartsWith (s ++ t) "/" = true := by
  simp only [jsStartsWith, String.data_append, List.isPrefixOf_iff_prefix] at h ⊢
  exact h.trans (List.prefix_append s.data t.data)

theorem jsStartsWith_download_path (p : String) :
    jsStartsWith ("/api/reports/download?path=" ++ encodeURIComponent p) "/" = true :=
  jsStartsWith_slash_append _ _ (by decide)

/-! ### Claims -/

/-- C1 (counterexample): the declared response envelope type
`AgentRunResponse` has no `output_files` field, contrary to the claim. -/
theorem agentRunResponse_output_files_absent :
    ¬ ("output_files" ∈ agentRunResponseFields.map Prod.fst) := by
  decide

/-- C1 (amended): the response envelope type `AgentRunResponse` declares
exactly the fields ok, response?, input_type, tool_results?, sources?,
warnings?, error?, timestamp, trace_id? and nlg?, with exactly ok,
input_type and timestamp required; it does not declare an `output_files`
field. -/
theorem agentRunResponse_fields_exact :
    agentRunResponseFields.map Prod.fst =
      ["ok", "response", "input_type", "tool_results", "sources", "warnings", "error",
       "timestamp", "trace_id", "nlg"]
    ∧ (agentRunResponseFields.filter (fun f => !f.2)).map Prod.fst =
      ["ok", "input_type", "timestamp"]
    ∧ "output_files" ∉ agentRunResponseFields.map Prod.fst := by
  refine ⟨by decide, by decide, by decide⟩

/-- C4: the single entry operation `runAgent` takes a request of exactly
the shape {input_type, query, session_id?, options?} with options
{lang?, top_k?, include_sources?, format?}, submits precisely this
request to the single agent endpoint `/api/agent/run` under the base URL,
and returns the collaborator's parsed envelope unchanged. -/
theorem runAgent_request_shape_endpoint :
    agentRunRequestFields =
      [("input_type", false), ("query", false), ("session_id", true), ("options", true)]
    ∧ agentRunOptionsFields =
      [("lang", true), ("top_k", true), ("include_sources", true), ("format", true)]
    ∧ ∀ (base : String) (post : String → AgentRunRequest → AgentRunResponse)
        (req : AgentRunRequest),
        runAgent base post req = post (base ++ "/api/agent/run") req := by
  refine ⟨by decide, by decide, fun base post req => ?_⟩
  have h : jsStartsWith "/api/agent/run" "/" = true := by decide
  simp [runAgent, apiPost, buildApiUrl, h]

/-- C5: the report file index entry type `ReportInfo` exposes exactly the
fields name, path, size, generated_at, render_mode and watermark, and for
every path string the client's download URL is the download endpoint with
the URI-encoded path as its `path` query parameter. -/
theorem report_index_fields_and_download_url :
    reportInfoFields = ["name", "path", "size", "generated_at", "render_mode", "watermark"]
    ∧ ∀ (base p : String),
        buildReportDownloadUrl base p =
          base ++ ("/api/reports/download?path=" ++ encodeURIComponent p) := by
  refine ⟨by decide, fun base p => ?_⟩
  simp [buildReportDownloadUrl, buildApiUrl, jsStartsWith_download_path p]

/-- C6: every `render_mode` value of the `ReportInfo` type denotes one of
the four strings auto, overlay, acroform, unknown; and every render_mode
string outside {overlay, acroform, auto} is displayed as the unknown badge
with the destructive variant. -/
theorem render_mode_values_and_unknown_display :
    (∀ m : RenderMode, renderModeString m ∈ ["auto", "overlay", "acroform", "unknown"])
    ∧ ∀ s : String, s ∉ (["overlay", "acroform", "auto"] : List String) →
        getRenderModeDisplay s = ⟨"未知", "destructive"⟩ := by
  constructor
  · intro m
    cases m <;> decide
  · intro s hs
    simp only [List.mem_cons, List.mem_singleton, not_or] at hs
    obtain ⟨h1, h2, h3⟩ := hs
    simp [getRenderModeDisplay, h1, h2, h3]

/-- C6 witness: the render_mode string "pdf" is outside the three known
modes and is displayed as the destructive unknown badge. -/
theorem render_mode_unknown_display_witness :
    "pdf" ∉ (["overlay", "acroform", "auto"] : List String)
    ∧ getRenderModeDisplay "pdf" = ⟨"未知", "destructive"⟩ :=
  ⟨by decide, render_mode_values_and_unknown_display.2 "pdf" (by decide)⟩

/-- C7: the `AgentRunRequest` type fixes `input_type` to the single tag
"text", so every request submitted through `useAgentChat.send` — and any
other operation building an `AgentRunRequest` — carries input_type
"text". -/
theorem agent_chat_input_type_text :
    (∀ req : AgentRunRequest, req.input_type = InputType.text)
    ∧ ∀ (text sessionId : String),
        (buildAgentChatRequest text sessionId).input_type = InputType.text := by
  constructor
  · intro req
    cases h : req.input_type
    rfl
  · intro text sessionId
    rfl

/-- C8: on an ok envelope whose response text is blank and whose warnings
list has n entries, `useAgentChat.send` appends n prefixed warning
messages and one further warning message joining all warnings — n+1
warning messages in total, so the warnings are displayed twice. -/
theorem agent_chat_blank_response_warnings_doubled
    (resp : AgentRunResponse) (ws : List String)
    (hok : resp.ok = true) (hblank : respBlank resp.response = true)
    (hw : resp.warnings = some ws) (hne : ws ≠ []) :
    (processAgentResponse resp).1 =
      ws.map (fun w => (⟨"warning", "警告: " ++ w, none, none⟩ : PendingMessage))
        ++ [⟨"warning", String.intercalate ", " ws, none, none⟩]
    ∧ (processAgentResponse resp).1.length = ws.length + 1 := by
  have hlen : 0 < ws.length := List.length_pos.mpr hne
  have hmain : (processAgentResponse resp).1 =
      ws.map (fun w => (⟨"warning", "警告: " ++ w, none, none⟩ : PendingMessage))
        ++ [⟨"warning", String.intercalate ", " ws, none, none⟩] := by
    cases hr : resp.response with
    | none => simp [processAgentResponse, hok, hw, hr, respBlank, hlen]
    | some r =>
      have hr' : jsTrim r = "" := by simpa [respBlank, hr] using hblank
      simp [processAgentResponse, hok, hw, hr, respBlank, hr', hlen]
  refine ⟨hmain, ?_⟩
  simp [hmain]

/-- A concrete ok envelope with a whitespace-only response and two
warnings. -/
def sampleBlankResponse : AgentRunResponse :=
  { ok := true
    response := some " "
    input_type := "text"
    tool_results := none
    sources := none
    warnings := some ["execute_tools_disabled", "tool_loops_exceeded: 3 >= 3"]
    error := none
    timestamp := "2025-09-04T00:00:00Z"
    trace_id := none
    nlg := none }

/-- C8 witness: on the concrete blank-response envelope with two warnings,
three warning messages are appended — the two prefixed ones and the joined
one. -/
theorem agent_chat_blank_response_warnings_doubled_witness :
    sampleBlankResponse.ok = true
    ∧ respBlank sampleBlankResponse.response = true
    ∧ sampleBlankResponse.warnings =
        some ["execute_tools_disabled", "tool_loops_exceeded: 3 >= 3"]
    ∧ (["execute_tools_disabled", "tool_loops_exceeded: 3 >= 3"] : List String) ≠ []
    ∧ ((processAgentResponse sampleBlankResponse).1 =
        (["execute_tools_disabled", "tool_loops_exceeded: 3 >= 3"] : List String).map
            (fun w => (⟨"warning", "警告: " ++ w, none, none⟩ : PendingMessage))
          ++ [⟨"warning",
                String.intercalate ", " ["execute_tools_disabled", "tool_loops_exceeded: 3 >= 3"],
                none, none⟩]
      ∧ (processAgentResponse sampleBlankResponse).1.length =
          (["execute_tools_disabled", "tool_loops_exceeded: 3 >= 3"] : List String).length + 1) :=
  ⟨rfl, by decide, rfl, by decide,
    agent_chat_blank_response_warnings_doubled sampleBlankResponse
      ["execute_tools_disabled", "tool_loops_exceeded: 3 >= 3"]
      rfl (by decide) rfl (by decide)⟩

/-- C9: on an envelope with ok false, `useAgentChat.send` appends exactly
one message, of type error, whose content is the envelope's error string
when that is a non-empty string and the default text otherwise; the hook's
error state is set to the same string, and no assistant message is
appended. -/
theorem agent_chat_error_single_message (resp : AgentRunResponse) (hok : resp.ok = false) :
    (processAgentResponse resp).1 =
      [⟨"error", jsOr resp.error "查詢處理失敗", none, none⟩]
    ∧ (processAgentResponse resp).2 = some (jsOr resp.error "查詢處理失敗")
    ∧ (∀ e, resp.error = some e → e ≠ "" → jsOr resp.error "查詢處理失敗" = e)
    ∧ (resp.error = none ∨ resp.error = some "" →
        jsOr resp.error "查詢處理失敗" = "查詢處理失敗")
    ∧ ∀ m ∈ (processAgentResponse resp).1, m.type = "error" := by
  refine ⟨?_, ?_, ?_, ?_, ?_⟩
  · simp [processAgentResponse, hok]
  · simp [processAgentResponse, hok]
  · intro e he hne
    simp [jsOr, he, hne]
  · rintro (he | he) <;> simp [jsOr, he]
  · intro m hm
    simp [processAgentResponse, hok] at hm
    simp [hm]

/-- A concrete failed envelope with a non-empty error string. -/
def sampleErrorResponse : AgentRunResponse :=
  { ok := false
    response := none
    input_type := "text"
    tool_results := none
    sources := none
    warnings := none
    error := some "無法判讀輸入"
    timestamp := "2025-09-04T00:00:00Z"
    trace_id := none
    nlg := none }

/-- C9 witness: on the concrete failed envelope, exactly one error message
carrying the envelope's error string is appended and the error state is
set to it. -/
theorem agent_chat_error_single_message_witness :
    sampleErrorResponse.ok = false
    ∧ ((processAgentResponse sampleErrorResponse).1 =
        [⟨"error", jsOr sampleErrorResponse.error "查詢處理失敗", none, none⟩]
      ∧ (processAgentResponse sampleErrorResponse).2 =
          some (jsOr sampleErrorResponse.error "查詢處理失敗")
      ∧ (∀ e, sampleErrorResponse.error = some e → e ≠ "" →
          jsOr sampleErrorResponse.error "查詢處理失敗" = e)
      ∧ (sampleErrorResponse.error = none ∨ sampleErrorResponse.error = some "" →
          jsOr sampleErrorResponse.error "查詢處理失敗" = "查詢處理失敗")
      ∧ ∀ m ∈ (processAgentResponse sampleErrorResponse).1, m.type = "error") :=
  ⟨rfl, agent_chat_error_single_message sampleErrorResponse rfl⟩

/-- C10: whenever `useReports.list` completes unsuccessfully — the
response has ok false, or the request throws — the reports state is set to
the empty list regardless of what was loaded before, the error state is
set to a non-null message, and loading is false after every completion. -/
theorem useReports_list_failure_resets :
    (∀ (prev : ReportsState) (res : Except ApiError ReportListResponse),
        (reportsList prev res).loading = false)
    ∧ (∀ (prev : ReportsState) (e : ApiError),
        reportsList prev (Except.error e) =
          ⟨[], some (jsOr e.message "取得報告列表時發生錯誤"), false⟩)
    ∧ (∀ (prev : ReportsState) (resp : ReportListResponse), resp.ok = false →
        reportsList prev (Except.ok resp) =
          ⟨[], some (jsOr resp.reason "取得報告列表失敗"), false⟩)
    ∧ (∀ (prev : ReportsState) (e : ApiError),
        (reportsList prev (Except.error e)).error ≠ none)
    ∧ (∀ (prev : ReportsState) (resp : ReportListResponse), resp.ok = false →
        (reportsList prev (Except.ok resp)).error ≠ none) := by
  refine ⟨?_, ?_, ?_, ?_, ?_⟩
  · intro prev res
    cases res with
    | ok resp => cases h : resp.ok <;> simp [reportsList, h]
    | error e => simp [reportsList]
  · intro prev e
    simp [reportsList]
  · intro prev resp h
    simp [reportsList, h]
  · intro prev e
    simp [reportsList]
  · intro prev resp h
    simp [reportsList, h]

/-- A concrete previously loaded hook state with one report entry. -/
def samplePrevState : ReportsState :=
  { reports := [⟨"AAPL.md", "20250904_075618/AAPL.md", 1024, "2025-09-04T07:56:18Z",
                 RenderMode.auto, "FC"⟩]
    error := none
    loading := false }

/-- A concrete failed report listing response. -/
def sampleFailedList : ReportListResponse :=
  { ok := false
    data := none
    count := 0
    reason := some "FMP_API_KEY 未設定"
    timestamp := "2025-09-04T00:00:00Z" }

/-- C10 witness: after a concrete failed listing, the previously loaded
entry is dropped, the error state holds the response's reason, and
loading is off. -/
theorem useReports_list_failure_resets_witness :
    sampleFailedList.ok = false
    ∧ reportsList samplePrevState (Except.ok sampleFailedList) =
        ⟨[], some (jsOr sampleFailedList.reason "取得報告列表失敗"), false⟩ :=
  ⟨rfl, useReports_list_failure_resets.2.2.1 samplePrevState sampleFailedList rfl⟩

/-! ### C2: the loop bound -/

theorem toolExecutionLoop_count_le (maxLoops : Nat)
    (planner : LoopState → List ToolInvocationPlan)
    (execute : List ToolInvocationPlan → List ToolResult) (needsMore : LoopState → Bool)
    (executeEnabled : Bool) :
    ∀ (fuel : Nat) (s : LoopState), maxLoops - s.loop_count ≤ fuel → s.loop_count ≤ maxLoops →
      (toolExecutionLoop maxLoops planner execute needsMore executeEnabled s).loop_count ≤
        maxLoops := by
  intro fuel
  induction fuel with
  | zero =>
    intro s hf hc
    rw [toolExecutionLoop]
    split
    · exact hc
    · split
      · exact hc
      · split
        · next h _ =>
          exfalso
          omega
        · exact hc
  | succ n ih =>
    intro s hf hc
    rw [toolExecutionLoop]
    split
    · exact hc
    · split
      · exact hc
      · split
        · next h _ =>
          split
          · refine ih _ ?_ ?_
            · show maxLoops - (s.loop_count + 1) ≤ n
              omega
            · show s.loop_count + 1 ≤ maxLoops
              omega
          · show s.loop_count + 1 ≤ maxLoops
            omega
        · exact hc

theorem toolExecutionLoop_exceeded_ok (maxLoops : Nat)
    (planner : LoopState → List ToolInvocationPlan)
    (execute : List ToolInvocationPlan → List ToolResult) (needsMore : LoopState → Bool)
    (executeEnabled : Bool) :
    ∀ (fuel : Nat) (s : LoopState), maxLoops - s.loop_count ≤ fuel →
      ∀ a b, LoopWarning.tool_loops_exceeded a b ∈
          (toolExecutionLoop maxLoops planner execute needsMore executeEnabled s).warnings →
        LoopWarning.tool_loops_exceeded a b ∈ s.warnings ∨
          (toolExecutionLoop maxLoops planner execute needsMore executeEnabled s).ok = true := by
  intro fuel
  induction fuel with
  | zero =>
    intro s hf
    rw [toolExecutionLoop]
    split
    · intro a b hmem
      exact Or.inl hmem
    · split
      · intro a b hmem
        simp only [List.mem_append, List.mem_singleton] at hmem
        rcases hmem with hmem | hmem
        · exact Or.inl hmem
        · exact absurd hmem (by simp)
      · split
        · next h _ =>
          exfalso
          omega
        · intro a b hmem
          exact Or.inr rfl
  | succ n ih =>
    intro s hf
    rw [toolExecutionLoop]
    split
    · intro a b hmem
      exact Or.inl hmem
    · split
      · intro a b hmem
        simp only [List.mem_append, List.mem_singleton] at hmem
        rcases hmem with hmem | hmem
        · exact Or.inl hmem
        · exact absurd hmem (by simp)
      · split
        · next h _ =>
          split
          · intro a b hmem
            rcases ih _ (show maxLoops - (s.loop_count + 1) ≤ n by omega) a b hmem with h' | h'
            · exact Or.inl h'
            · exact Or.inr h'
          · intro a b hmem
            exact Or.inl hmem
        · intro a b hmem
          exact Or.inr rfl

theorem toolExecutionLoop_exhaustion (maxLoops : Nat)
    (planner : LoopState → List ToolInvocationPlan)
    (execute : List ToolInvocationPlan → List ToolResult) (needsMore : LoopState → Bool)
    (hp : ∀ t, (planner t).isEmpty = false) (hm : ∀ t, needsMore t = true) :
    ∀ (fuel : Nat) (s : LoopState), maxLoops - s.loop_count ≤ fuel → s.loop_count ≤ maxLoops →
      LoopWarning.tool_loops_exceeded maxLoops maxLoops ∈
        (toolExecutionLoop maxLoops planner execute needsMore true s).warnings
      ∧ (toolExecutionLoop maxLoops planner execute needsMore true s).ok = true := by
  intro fuel
  induction fuel with
  | zero =>
    intro s hf hc
    rw [toolExecutionLoop]
    split
    · next hempty =>
      rw [hp s] at hempty
      cases hempty
    · split
      · next hdis =>
        simp at hdis
      · split
        · next h _ =>
          exfalso
          omega
        · next h _ =>
          have hlc : s.loop_count = maxLoops := by omega
          exact ⟨by simp [hlc], rfl⟩
  | succ n ih =>
    intro s hf hc
    rw [toolExecutionLoop]
    split
    · next hempty =>
      rw [hp s] at hempty
      cases hempty
    · split
      · next hdis =>
        simp at hdis
      · split
        · next h _ =>
          rw [hm _, if_pos rfl]
          refine ih _ ?_ ?_
          · show maxLoops - (s.loop_count + 1) ≤ n
            omega
          · show s.loop_count + 1 ≤ maxLoops
            omega
        · next h _ =>
          have hlc : s.loop_count = maxLoops := by omega
          exact ⟨by simp [hlc], rfl⟩

/-- C2: for every configuration and initial state, the ToolExecutionLoop
terminates with `loop_count` at most MAX_TOOL_LOOPS; every
`tool_loops_exceeded` warning it produces comes with ok still true; and
when tools keep demanding re-planning forever, the exceeded warning is in
fact produced and ok stays true. -/
theorem toolExecutionLoop_bounded (maxLoops : Nat)
    (planner : LoopState → List ToolInvocationPlan)
    (execute : List ToolInvocationPlan → List ToolResult) (needsMore : LoopState → Bool)
    (executeEnabled : Bool) (s : LoopState) (hc : s.loop_count ≤ maxLoops) :
    (toolExecutionLoop maxLoops planner execute needsMore executeEnabled s).loop_count ≤ maxLoops
    ∧ (∀ a b, LoopWarning.tool_loops_exceeded a b ∈
          (toolExecutionLoop maxLoops planner execute needsMore executeEnabled s).warnings →
        LoopWarning.tool_loops_exceeded a b ∈ s.warnings ∨
          (toolExecutionLoop maxLoops planner execute needsMore executeEnabled s).ok = true)
    ∧ (executeEnabled = true → (∀ t, (planner t).isEmpty = false) →
        (∀ t, needsMore t = true) →
        LoopWarning.tool_loops_exceeded maxLoops maxLoops ∈
          (toolExecutionLoop maxLoops planner execute needsMore executeEnabled s).warnings
        ∧ (toolExecutionLoop maxLoops planner execute needsMore executeEnabled s).ok = true) := by
  refine ⟨toolExecutionLoop_count_le maxLoops planner execute needsMore executeEnabled
      _ s (Nat.le_refl _) hc,
    toolExecutionLoop_exceeded_ok maxLoops planner execute needsMore executeEnabled
      _ s (Nat.le_refl _),
    fun hen hp hm => ?_⟩
  subst hen
  exact toolExecutionLoop_exhaustion maxLoops planner execute needsMore hp hm _ s
    (Nat.le_refl _) hc

/-- A concrete planner that always plans one quote lookup. -/
def sampleLoopPlanner : LoopState → List ToolInvocationPlan :=
  fun _ => [⟨"stock_price", [("symbol", "AAPL")], none⟩]

/-- A concrete executor whose single tool call fails for a missing key. -/
def sampleLoopExecute : List ToolInvocationPlan → List ToolResult :=
  fun _ => [⟨false, "FMP", "stock_price", none, some "missing_api_key", none,
             "2025-09-04T00:00:00Z"⟩]

/-- A re-planning predicate that always demands another round. -/
def sampleNeedsMore : LoopState → Bool :=
  fun _ => true

/-- A fresh per-request loop state. -/
def sampleLoopStart : LoopState :=
  { loop_count := 0, tool_results := [], warnings := [], ok := true }

/-- C2 witness: with bound 3, a planner that always plans a call and a
tool that always demands re-planning, the loop terminates with loop_count
at most 3, and the exceeded warning is produced with ok true. -/
theorem toolExecutionLoop_bounded_witness :
    sampleLoopStart.loop_count ≤ 3
    ∧ ((toolExecutionLoop 3 sampleLoopPlanner sampleLoopExecute sampleNeedsMore true
          sampleLoopStart).loop_count ≤ 3
      ∧ (∀ a b, LoopWarning.tool_loops_exceeded a b ∈
            (toolExecutionLoop 3 sampleLoopPlanner sampleLoopExecute sampleNeedsMore true
              sampleLoopStart).warnings →
          LoopWarning.tool_loops_exceeded a b ∈ sampleLoopStart.warnings ∨
            (toolExecutionLoop 3 sampleLoopPlanner sampleLoopExecute sampleNeedsMore true
              sampleLoopStart).ok = true)
      ∧ (true = true → (∀ t, (sampleLoopPlanner t).isEmpty = false) →
          (∀ t, sampleNeedsMore t = true) →
          LoopWarning.tool_loops_exceeded 3 3 ∈
            (toolExecutionLoop 3 sampleLoopPlanner sampleLoopExecute sampleNeedsMore true
              sampleLoopStart).warnings
          ∧ (toolExecutionLoop 3 sampleLoopPlanner sampleLoopExecute sampleNeedsMore true
              sampleLoopStart).ok = true)) :=
  ⟨Nat.zero_le 3,
    toolExecutionLoop_bounded 3 sampleLoopPlanner sampleLoopExecute sampleNeedsMore true
      sampleLoopStart (Nat.zero_le 3)⟩

/-! ### C3: MAX_TOOL_LOOPS default -/

theorem ensureEnvVar_find_none (lines : List String) (k v key : String)
    (hfind : lines.find? (fun l => jsStartsWith l (key ++ "=")) = none)
    (happ : jsStartsWith (k ++ "=" ++ v) (key ++ "=") = false) :
    (ensureEnvVar lines k v).find? (fun l => jsStartsWith l (key ++ "=")) = none := by
  unfold ensureEnvVar
  split
  · exact hfind
  · simp [List.find?_append, hfind, List.find?_cons, happ]

theorem ensureEnvVar_find_some (lines : List String) (k v key b : String)
    (hfind : lines.find? (fun l => jsStartsWith l (key ++ "=")) = some b) :
    (ensureEnvVar lines k v).find? (fun l => jsStartsWith l (key ++ "=")) = some b := by
  unfold ensureEnvVar
  split
  · exact hfind
  · simp [List.find?_append, hfind]

theorem ensureEnvVar_adds (lines : List String) (k v : String)
    (hfind : lines.find? (fun l => jsStartsWith l (k ++ "=")) = none) :
    ensureEnvVar lines k v = lines ++ [k ++ "=" ++ v] := by
  unfold ensureEnvVar
  rw [if_neg]
  simp [envHasKey, hfind]

theorem ensureEnvVar_mem (lines : List String) (k v x : String) (hx : x ∈ lines) :
    x ∈ ensureEnvVar lines k v := by
  unfold ensureEnvVar
  split
  · exact hx
  · exact List.mem_append_left _ hx

/-- C3: when the environment file does not set MAX_TOOL_LOOPS, both fix
scripts append the line MAX_TOOL_LOOPS=3, and the value the scripts then
read for MAX_TOOL_LOOPS is 3. -/
theorem max_tool_loops_default_three (lines : List String)
    (h : envHasKey lines "MAX_TOOL_LOOPS" = false) :
    envValue (fixAgentEnv lines) "MAX_TOOL_LOOPS" = some "3"
    ∧ envValue (fixSupervisorEnv lines) "MAX_TOOL_LOOPS" = some "3"
    ∧ "MAX_TOOL_LOOPS=3" ∈ fixAgentEnv lines
    ∧ "MAX_TOOL_LOOPS=3" ∈ fixSupervisorEnv lines := by
  have hfind : lines.find? (fun l => jsStartsWith l ("MAX_TOOL_LOOPS" ++ "=")) = none := by
    unfold envHasKey at h
    cases hf : lines.find? (fun l => jsStartsWith l ("MAX_TOOL_LOOPS" ++ "=")) with
    | none => rfl
    | some x => rw [hf] at h; simp at h
  have h1 := ensureEnvVar_find_none lines "EXECUTE_TOOLS" "1" "MAX_TOOL_LOOPS" hfind (by decide)
  have h2 := ensureEnvVar_find_none _ "COLLOQUIAL_ENABLED" "1" "MAX_TOOL_LOOPS" h1 (by decide)
  have hadd := ensureEnvVar_adds _ "MAX_TOOL_LOOPS" "3" h2
  have h3 : (ensureEnvVar (ensureEnvVar (ensureEnvVar lines "EXECUTE_TOOLS" "1")
        "COLLOQUIAL_ENABLED" "1") "MAX_TOOL_LOOPS" "3").find?
        (fun l => jsStartsWith l ("MAX_TOOL_LOOPS" ++ "=")) =
      some ("MAX_TOOL_LOOPS" ++ "=" ++ "3") := by
    rw [hadd, List.find?_append, h2, Option.none_or, List.find?_cons]
    have hsw : jsStartsWith ("MAX_TOOL_LOOPS" ++ "=" ++ "3") ("MAX_TOOL_LOOPS" ++ "=") = true := by
      decide
    rw [hsw]
  have hmem3 : "MAX_TOOL_LOOPS=3" ∈ ensureEnvVar (ensureEnvVar (ensureEnvVar lines
      "EXECUTE_TOOLS" "1") "COLLOQUIAL_ENABLED" "1") "MAX_TOOL_LOOPS" "3" := by
    rw [hadd]
    refine List.mem_append_right _ ?_
    simp
  refine ⟨?_, ?_, ?_, ?_⟩
  · unfold fixAgentEnv envValue
    rw [ensureEnvVar_find_some _ "LLM_REPORT_ENHANCEMENT" "1" "MAX_TOOL_LOOPS" _ h3]
    rfl
  · unfold fixSupervisorEnv envValue
    rw [ensureEnvVar_find_some _ "VECTORSTORE_DIR" "./vector_store" "MAX_TOOL_LOOPS" _
      (ensureEnvVar_find_some _ "PDF_ENGINE" "weasyprint" "MAX_TOOL_LOOPS" _
        (ensureEnvVar_find_some _ "OUTPUT_DIR" "./outputs" "MAX_TOOL_LOOPS" _ h3))]
    rfl
  · unfold fixAgentEnv
    exact ensureEnvVar_mem _ "LLM_REPORT_ENHANCEMENT" "1" _ hmem3
  · unfold fixSupervisorEnv
    exact ensureEnvVar_mem _ "VECTORSTORE_DIR" "./vector_store" _
      (ensureEnvVar_mem _ "PDF_ENGINE" "weasyprint" _
        (ensureEnvVar_mem _ "OUTPUT_DIR" "./outputs" _ hmem3))

/-- C3 witness: on a concrete environment file that sets only an API key,
both fix scripts write MAX_TOOL_LOOPS=3 and read back the value 3. -/
theorem max_tool_loops_default_three_witness :
    envHasKey ["OPENAI_API_KEY=sk-test"] "MAX_TOOL_LOOPS" = false
    ∧ (envValue (fixAgentEnv ["OPENAI_API_KEY=sk-test"]) "MAX_TOOL_LOOPS" = some "3"
      ∧ envValue (fixSupervisorEnv ["OPENAI_API_KEY=sk-test"]) "MAX_TOOL_LOOPS" = some "3"
      ∧ "MAX_TOOL_LOOPS=3" ∈ fixAgentEnv ["OPENAI_API_KEY=sk-test"]
      ∧ "MAX_TOOL_LOOPS=3" ∈ fixSupervisorEnv ["OPENAI_API_KEY=sk-test"]) :=
  ⟨by decide, max_tool_loops_default_three ["OPENAI_API_KEY=sk-test"] (by decide)⟩

end FCTools
